import Mathlib

/-!
Verification of the buffer / execution-dispatch layer in
`src/exla/c_src/exla/exla_client.cc`.

The XLA PjRt runtime (devices, transfers, compilation, execution) is an
external black box; it is modelled as a `Backend` structure of functions.
The Exla layer itself is embedded as executable Lean functions over that
backend.  Calls into the backend, buffer tracking and host/device copies
are recorded in an event trace (`M` below), so that ordering properties
("tracked before dispatch", "no lookup attempted") can be stated.
-/

/-- Status/error taxonomy of `xla::Status`, restricted to the codes the
Exla layer produces or forwards. -/
inductive XlaError where
  | invalidArgument (msg : String)
  | failedPrecondition (msg : String)
  | notFound (msg : String)
  | backend (msg : String)
deriving DecidableEq, Repr

instance {ε α : Type} [DecidableEq ε] [DecidableEq α] : DecidableEq (Except ε α) := fun a b =>
  match a, b with
  | .error e1, .error e2 =>
    match decEq e1 e2 with
    | isTrue h => isTrue (by rw [h])
    | isFalse h => isFalse (fun heq => h (by injection heq))
  | .error _, .ok _ => isFalse (fun heq => by injection heq)
  | .ok _, .error _ => isFalse (fun heq => by injection heq)
  | .ok a1, .ok a2 =>
    match decEq a1 a2 with
    | isTrue h => isTrue (by rw [h])
    | isFalse h => isFalse (fun heq => h (by injection heq))

/-- Host-side byte strings (`ErlNifBinary` contents). -/
abbrev Bytes := List Nat

/-- `xla::Layout`: physical arrangement, kept as a minor-to-major order. -/
structure Layout where
  minorToMajor : List Nat
deriving DecidableEq, Repr

/-- `xla::Shape`: an array shape (element type code, dimensions, optional
layout) or a tuple of shapes. -/
inductive Shape where
  | array (elementType : Nat) (dimensions : List Nat) (layout : Option Layout)
  | tuple (elements : List Shape)

mutual

def Shape.decEq : (a b : Shape) → Decidable (a = b)
  | .array t1 d1 l1, .array t2 d2 l2 =>
    if h : t1 = t2 ∧ d1 = d2 ∧ l1 = l2 then
      isTrue (by obtain ⟨h1, h2, h3⟩ := h; rw [h1, h2, h3])
    else
      isFalse (fun heq => by cases heq; exact h ⟨rfl, rfl, rfl⟩)
  | .array _ _ _, .tuple _ => isFalse (fun heq => Shape.noConfusion heq)
  | .tuple _, .array _ _ _ => isFalse (fun heq => Shape.noConfusion heq)
  | .tuple es1, .tuple es2 =>
    match Shape.decEqList es1 es2 with
    | isTrue h => isTrue (by rw [h])
    | isFalse h => isFalse (fun heq => h (by injection heq))

def Shape.decEqList : (a b : List Shape) → Decidable (a = b)
  | [], [] => isTrue rfl
  | [], _ :: _ => isFalse (fun heq => List.noConfusion heq)
  | _ :: _, [] => isFalse (fun heq => List.noConfusion heq)
  | x :: xs, y :: ys =>
    match Shape.decEq x y, Shape.decEqList xs ys with
    | isTrue h1, isTrue h2 => isTrue (by rw [h1, h2])
    | isFalse h1, _ => isFalse (fun heq => h1 (by injection heq))
    | _, isFalse h2 => isFalse (fun heq => h2 (by injection heq))

end

instance : DecidableEq Shape := Shape.decEq

instance : Repr Shape := ⟨fun _ _ => Std.Format.text "<shape>"⟩

namespace Shape

/-- `shape.IsTuple()`. -/
def IsTuple : Shape → Bool
  | .tuple _ => true
  | .array _ _ _ => false

/-- `xla::ShapeUtil::IsNestedTuple`: a tuple one of whose elements is
itself a tuple. -/
def IsNestedTuple : Shape → Bool
  | .tuple es => es.any IsTuple
  | .array _ _ _ => false

/-- `shape.element_type()`; XLA reports the TUPLE primitive type (code 13)
on tuple shapes. -/
def elementType : Shape → Nat
  | .array t _ _ => t
  | .tuple _ => 13

/-- `shape.dimensions()`; empty on tuple shapes. -/
def dimensions : Shape → List Nat
  | .array _ d _ => d
  | .tuple _ => []

/-- The layout carried by an array shape. -/
def layoutOf : Shape → Option Layout
  | .array _ _ l => l
  | .tuple _ => none

/-- XLA's default layout for a rank-n array: descending minor-to-major. -/
def defaultLayout (dims : List Nat) : Layout :=
  ⟨(List.range dims.length).reverse⟩

/-- `xla::ShapeUtil::MakeShape(type, dims)`: an array shape carrying the
default (descending minor-to-major) layout. -/
def MakeShape (elementType : Nat) (dims : List Nat) : Shape :=
  .array elementType dims (some (defaultLayout dims))

/-- `xla::LayoutUtil::ClearLayout`: drop the explicit layout. -/
def ClearLayout : Shape → Shape
  | .array t d _ => .array t d none
  | .tuple es => .tuple es

/-- `xla::ShapeUtil::TupleElementCount`. -/
def TupleElementCount : Shape → Nat
  | .tuple es => es.length
  | .array _ _ _ => 0

end Shape

/-- `xla::LayoutUtil::LayoutsInShapesEqual`, specialised to the only case
the Exla layer exercises (its `host_shape` argument is always an array
shape built by `MakeShape`): array shapes compare their layouts, a kind
mismatch compares unequal. -/
def LayoutsInShapesEqual (a b : Shape) : Bool :=
  match a, b with
  | .array _ _ l1, .array _ _ l2 => l1 == l2
  | _, _ => false

/-- `xla::Literal`: a host value, its shape plus serialized bytes.
`size_bytes()` is the length of `data`, `untyped_data()` is `data`. -/
structure Literal where
  shape : Shape
  data : Bytes
deriving DecidableEq, Repr

/-- `xla::BorrowingLiteral`: host chunks lent to the backend for an infeed
transfer, together with the declared shape.  The single-chunk constructor
is represented with a one-element `chunks` list. -/
structure BorrowingLiteral where
  chunks : List Bytes
  shape : Shape
deriving DecidableEq, Repr

/-- `xla::PjRtDevice`, reduced to its identity. -/
structure Device where
  id : Int
deriving DecidableEq, Repr

/-- `xla::PjRtBuffer`: one device allocation.  `deleted` is the state
`IsDeleted()` reads and `Delete()` sets; `ready` is the outcome of
`BlockHostUntilReady()`; `literal` is the outcome of `ToLiteral()`. -/
structure PjRtBuffer where
  deleted : Bool
  ready : Except XlaError Unit
  literal : Except XlaError Literal
  on_device_shape : Shape
deriving DecidableEq, Repr

/-- `exla::ExlaBuffer`: wraps a `PjRtBuffer` with the
`can_be_released_after_run_` flag. -/
structure ExlaBuffer where
  buffer : PjRtBuffer
  can_be_released_after_run : Bool
deriving DecidableEq, Repr

/-- `buf->release_after_run()` accessor. -/
def ExlaBuffer.release_after_run (b : ExlaBuffer) : Bool :=
  b.can_be_released_after_run

/-- `xla::PjRtExecutable`, reduced to an identity. -/
structure PjRtExecutable where
  uid : Nat
deriving DecidableEq, Repr

/-- `exla::ExlaExecutable`: compiled program plus optional fingerprint
(the non-owning client pointer is the `Backend` argument threaded through
the functions below). -/
structure ExlaExecutable where
  executable : PjRtExecutable
  fingerprint : Option String
deriving DecidableEq, Repr

/-- `xla::ExecutableBuildOptions`, opaque to this layer. -/
abbrev ExecutableBuildOptions := Nat

/-- `xla::XlaComputation`, opaque to this layer. -/
abbrev XlaComputation := Nat

/-- The fields of `xla::CompileOptions` the Exla layer sets. -/
structure CompileOptions where
  argument_layouts : List Shape
  parameter_is_tupled_arguments : Bool
  executable_build_options : ExecutableBuildOptions
  compile_portable_executable : Bool
deriving DecidableEq, Repr

/-- The fields of `xla::ExecuteOptions` the Exla layer sets (defaults are
XLA's). -/
structure ExecuteOptions where
  untuple_result : Bool := false
  strict_shape_checking : Bool := true
deriving DecidableEq, Repr

/-- Observable actions of the Exla layer: calls into the backend runtime,
host copies, buffer releases, and the registration of a buffer as a
caller-tracked resource term (`nif::make<ExlaBuffer*>`). -/
inductive Event where
  | lookupDevice (deviceId : Int)
  | bufferFromHost (data : Bytes) (shape : Shape) (deviceId : Int)
  | blockUntilReady (b : PjRtBuffer)
  | toLiteral (b : PjRtBuffer)
  | makeBufferTerm (b : ExlaBuffer)
  | deleteBuffer (b : PjRtBuffer)
  | compileCall (opts : CompileOptions)
  | executePortable (d : Device)
  | executeDefault
  | infeedTransfer (d : Device) (lit : BorrowingLiteral)
  | outfeedTransfer (d : Device) (shape : Shape)
deriving DecidableEq, Repr

/-- Result of running an Exla operation: the events it performed, in
order (kept also when the operation fails midway), and its
result-or-error. -/
structure M (α : Type) where
  trace : List Event
  result : Except XlaError α
deriving DecidableEq, Repr

namespace M

def pure {α : Type} (a : α) : M α := ⟨[], .ok a⟩

def bind {α β : Type} (x : M α) (f : α → M β) : M β :=
  match x.result with
  | .error e => ⟨x.trace, .error e⟩
  | .ok a => ⟨x.trace ++ (f a).trace, (f a).result⟩

/-- A call into the backend: records the event, yields the backend's
answer. -/
def call {α : Type} (ev : Event) (r : Except XlaError α) : M α := ⟨[ev], r⟩

def emit (ev : Event) : M Unit := ⟨[ev], .ok ()⟩

def throw {α : Type} (e : XlaError) : M α := ⟨[], .error e⟩

@[simp] theorem pure_trace {α : Type} (a : α) : (pure a).trace = [] := rfl
@[simp] theorem pure_result {α : Type} (a : α) : (pure a).result = .ok a := rfl
@[simp] theorem call_trace {α : Type} (ev : Event) (r : Except XlaError α) :
    (call ev r).trace = [ev] := rfl
@[simp] theorem call_result {α : Type} (ev : Event) (r : Except XlaError α) :
    (call ev r).result = r := rfl
@[simp] theorem emit_trace (ev : Event) : (emit ev).trace = [ev] := rfl
@[simp] theorem emit_result (ev : Event) : (emit ev).result = .ok () := rfl
@[simp] theorem throw_trace {α : Type} (e : XlaError) : (throw e : M α).trace = [] := rfl
@[simp] theorem throw_result {α : Type} (e : XlaError) : (throw e : M α).result = .error e := rfl

theorem bind_result_ok {α β : Type} {x : M α} {a : α} (f : α → M β)
    (h : x.result = .ok a) : (bind x f).result = (f a).result := by
  unfold bind; rw [h]

theorem bind_trace_ok {α β : Type} {x : M α} {a : α} (f : α → M β)
    (h : x.result = .ok a) : (bind x f).trace = x.trace ++ (f a).trace := by
  unfold bind; rw [h]

theorem bind_result_err {α β : Type} {x : M α} {e : XlaError} (f : α → M β)
    (h : x.result = .error e) : (bind x f).result = .error e := by
  unfold bind; rw [h]

theorem bind_trace_err {α β : Type} {x : M α} {e : XlaError} (f : α → M β)
    (h : x.result = .error e) : (bind x f).trace = x.trace := by
  unfold bind; rw [h]

@[simp] theorem bind_mk_ok {α β : Type} (t : List Event) (a : α) (f : α → M β) :
    bind ⟨t, .ok a⟩ f = ⟨t ++ (f a).trace, (f a).result⟩ := rfl

@[simp] theorem bind_mk_err {α β : Type} (t : List Event) (e : XlaError) (f : α → M β) :
    bind ⟨t, .error e⟩ f = ⟨t, .error e⟩ := rfl

/-- Events of the first stage survive into the whole trace. -/
theorem mem_bind_left {α β : Type} {x : M α} (f : α → M β) {ev : Event}
    (h : ev ∈ x.trace) : ev ∈ (bind x f).trace := by
  unfold bind
  cases hr : x.result with
  | error e => simpa using h
  | ok a => simp [List.mem_append]; exact Or.inl h

/-- A predicate holding on both stages' events holds on the bind's. -/
theorem trace_all_bind {α β : Type} {x : M α} {f : α → M β} {P : Event → Prop}
    (hx : ∀ ev ∈ x.trace, P ev) (hf : ∀ a, ∀ ev ∈ (f a).trace, P ev) :
    ∀ ev ∈ (bind x f).trace, P ev := by
  unfold bind
  cases hr : x.result with
  | error e => simpa using hx
  | ok a =>
    intro ev hev
    simp [List.mem_append] at hev
    rcases hev with h | h
    · exact hx ev h
    · exact hf a ev h

end M

/-- The PjRt runtime as a black box: the primitives
`exla_client.cc` invokes on `client_`, devices and buffers. -/
structure Backend where
  lookupDevice : Int → Except XlaError Device
  bufferFromHostBuffer : Bytes → Shape → Device → Except XlaError PjRtBuffer
  relayout : Literal → Shape → Literal
  compile : XlaComputation → CompileOptions → Except XlaError PjRtExecutable
  executableFingerprint : PjRtExecutable → Except XlaError (Option String)
  executePortable : PjRtExecutable → List PjRtBuffer → Device → ExecuteOptions →
    Except XlaError (List PjRtBuffer)
  execute : PjRtExecutable → List (List PjRtBuffer) → ExecuteOptions →
    Except XlaError (List (List PjRtBuffer))
  transferToInfeed : Device → BorrowingLiteral → Except XlaError Unit
  transferFromOutfeed : Device → Shape → Except XlaError Literal

/-- A call argument as decoded by `UnpackRunArguments`: a 2-tuple of a
binary and a shape reference, an `ExlaBuffer*` resource, or any other
term (rejected). -/
inductive RunArgTerm where
  | binShape (data : Bytes) (shape : Shape)
  | bufferRef (buf : ExlaBuffer)
  | malformed
deriving DecidableEq, Repr

/-- An infeed data chunk as received from the caller: a binary or any
other term (rejected). -/
inductive ErlTerm where
  | binary (b : Bytes)
  | other
deriving DecidableEq, Repr

/-- One element of the list `UnpackResult` builds: a tracked device
buffer handle, or host bytes. -/
inductive OutTerm where
  | bufferTerm (b : ExlaBuffer)
  | binaryTerm (bs : Bytes)
deriving DecidableEq, Repr

/-- `exla::CopyLiteralToBinary` (exla_client.cc:15-20): clamp `size` to
the literal's byte count when negative or too large, then copy that many
leading bytes. -/
def CopyLiteralToBinary (literal : Literal) (size : Int) : Bytes :=
  let actual_size : Int := literal.data.length
  let size := if size < 0 ∨ size > actual_size then actual_size else size
  literal.data.take size.toNat

/-- `ExlaBuffer::ToBinary` (exla_client.cc:22-38): wait for the buffer,
fetch its literal, relayout when the device layout differs from the
canonical host layout, and serialize through `CopyLiteralToBinary`. -/
def ExlaBuffer.ToBinary (be : Backend) (b : ExlaBuffer) (size : Int) : M Bytes :=
  M.bind (M.call (.blockUntilReady b.buffer) b.buffer.ready) (fun _ =>
  M.bind (M.call (.toLiteral b.buffer) b.buffer.literal) (fun literal =>
    let host_shape := Shape.MakeShape b.buffer.on_device_shape.elementType
      b.buffer.on_device_shape.dimensions
    if LayoutsInShapesEqual host_shape literal.shape then
      M.pure (CopyLiteralToBinary literal size)
    else
      M.pure (CopyLiteralToBinary (be.relayout literal host_shape) size)))

/-- `ExlaBuffer::BlockHostUntilReady` (exla_client.cc:40-42). -/
def ExlaBuffer.BlockHostUntilReady (b : ExlaBuffer) : M Unit :=
  M.call (.blockUntilReady b.buffer) b.buffer.ready

/-- `ExlaBuffer::Deallocate` (exla_client.cc:44-52): a failed
precondition on an already-deleted buffer, otherwise `Delete()` (the
buffer becomes deleted) and OK. -/
def ExlaBuffer.Deallocate (b : ExlaBuffer) : Except XlaError ExlaBuffer :=
  if b.buffer.deleted then
    .error (.failedPrecondition "Attempt to deallocate already deallocated buffer.")
  else
    .ok { b with buffer := { b.buffer with deleted := true } }

/-- `ExlaClient::BufferFromBinary` (exla_client.cc:173-183): resolve the
device, start the host-to-device transfer (immutable-until-transfer-
completes semantics), wrap the result. -/
def ExlaClient.BufferFromBinary (be : Backend) (binary : Bytes) (shape : Shape)
    (device_id : Int) (can_be_released_after_run : Bool) : M ExlaBuffer :=
  M.bind (M.call (.lookupDevice device_id) (be.lookupDevice device_id)) (fun device =>
  M.bind (M.call (.bufferFromHost binary shape device_id)
      (be.bufferFromHostBuffer binary shape device)) (fun buffer =>
  M.pure ⟨buffer, can_be_released_after_run⟩))

/-- `exla::UnpackRunArguments` (exla_client.cc:54-96): each argument is
either `{binary, shape}` — materialized through `BufferFromBinary` with
`can_be_released_after_run = true` — or an existing buffer resource,
passed through unchanged. -/
def UnpackRunArguments (be : Backend) (arguments : List RunArgTerm)
    (device_id : Int) : M (List ExlaBuffer) :=
  match arguments with
  | [] => M.pure []
  | .binShape data shape :: rest =>
    M.bind (ExlaClient.BufferFromBinary be data shape device_id true) (fun buf =>
    M.bind (UnpackRunArguments be rest device_id) (fun bufs =>
    M.pure (buf :: bufs)))
  | .bufferRef buf :: rest =>
    M.bind (UnpackRunArguments be rest device_id) (fun bufs =>
    M.pure (buf :: bufs))
  | .malformed :: _ =>
    M.throw (.invalidArgument "Expected argument to be buffer reference.")

/-- The per-buffer body of `exla::UnpackResult` (exla_client.cc:101-111):
wrap the result buffer (the header defaults `can_be_released_after_run`
to false for execution outputs); keep it as a tracked handle, or read it
back with `ToBinary(-1)` and release it (`delete buf`). -/
def unpackResultAux (be : Backend) (result : List PjRtBuffer) (keep_on_device : Bool) :
    M (List OutTerm) :=
  match result with
  | [] => M.pure []
  | pjrt_buf :: rest =>
    let buf : ExlaBuffer := ⟨pjrt_buf, false⟩
    M.bind
      (if keep_on_device then
        M.bind (M.emit (.makeBufferTerm buf)) (fun _ =>
        M.pure (OutTerm.bufferTerm buf))
      else
        M.bind (ExlaBuffer.ToBinary be buf (-1)) (fun bin =>
        M.bind (M.emit (.deleteBuffer pjrt_buf)) (fun _ =>
        M.pure (OutTerm.binaryTerm bin))))
      (fun term =>
    M.bind (unpackResultAux be rest keep_on_device) (fun terms =>
    M.pure (term :: terms)))

/-- `exla::UnpackResult` (exla_client.cc:98-113): the processed output
list paired with the success marker `0`. -/
def UnpackResult (be : Backend) (result : List PjRtBuffer) (keep_on_device : Bool) :
    M (List OutTerm × Int) :=
  M.bind (unpackResultAux be result keep_on_device) (fun terms =>
  M.pure (terms, 0))

/-- The loop of `ExlaExecutable::Run` over the input buffers
(exla_client.cc:142-154): every buffer tagged `release_after_run` is
blocked on until its transfer completes and then exposed as a tracked
resource term. -/
def blockAndTrack (bufs : List ExlaBuffer) : M Unit :=
  match bufs with
  | [] => M.pure ()
  | buf :: rest =>
    if buf.release_after_run then
      M.bind (ExlaBuffer.BlockHostUntilReady buf) (fun _ =>
      M.bind (M.emit (.makeBufferTerm buf)) (fun _ =>
      blockAndTrack rest))
    else
      blockAndTrack rest

/-- The `xla::ExecuteOptions` `Run` always uses (exla_client.cc:125-127). -/
def runOptions : ExecuteOptions := { untuple_result := true, strict_shape_checking := false }

/-- `ExlaExecutable::Run` (exla_client.cc:121-169).  Arguments are
unpacked on `device_id` when non-negative and on device 0 otherwise;
newly materialized buffers are blocked on and tracked; dispatch is
portable execution on the looked-up device for `device_id >= 0`, and
default execution taking `result.at(0)` — the first replica — otherwise.
(`result.at(0)` on an empty result vector would throw in C++; the PjRt
contract returns one entry per replica, and the model surfaces the
impossible empty case as a backend error.) -/
def ExlaExecutable.Run (be : Backend) (ex : ExlaExecutable) (arguments : List RunArgTerm)
    (keep_on_device : Bool) (device_id : Int) : M (List OutTerm × Int) :=
  M.bind
    (if device_id ≥ 0 then UnpackRunArguments be arguments device_id
     else UnpackRunArguments be arguments 0)
    (fun input_buffers =>
  let pjrt_buffers := input_buffers.map ExlaBuffer.buffer
  M.bind (blockAndTrack input_buffers) (fun _ =>
  if device_id ≥ 0 then
    M.bind (M.call (.lookupDevice device_id) (be.lookupDevice device_id)) (fun device =>
    M.bind (M.call (.executePortable device)
        (be.executePortable ex.executable pjrt_buffers device runOptions)) (fun result =>
    UnpackResult be result keep_on_device))
  else
    M.bind (M.call .executeDefault
        (be.execute ex.executable [pjrt_buffers] runOptions)) (fun result =>
    match result.head? with
    | some r0 => UnpackResult be r0 keep_on_device
    | none => M.throw (.backend "executable produced no replica results"))))

/-- The canonicalized argument layouts `ExlaClient::Compile` builds
(exla_client.cc:189-195): keep only element type and dimensions, then
clear the layout. -/
def compileLayouts (argument_layouts : List Shape) : List Shape :=
  argument_layouts.map (fun shape =>
    Shape.ClearLayout (Shape.MakeShape shape.elementType shape.dimensions))

/-- `ExlaClient::Compile` (exla_client.cc:185-209): canonicalized
argument layouts, arguments never tupled, portability flag threaded
through; on success the backend's optional fingerprint is stored in the
returned executable. -/
def ExlaClient.Compile (be : Backend) (computation : XlaComputation)
    (argument_layouts : List Shape) (options : ExecutableBuildOptions)
    (compile_portable_executable : Bool) : M ExlaExecutable :=
  let compile_opts : CompileOptions :=
    { argument_layouts := compileLayouts argument_layouts
      parameter_is_tupled_arguments := false
      executable_build_options := options
      compile_portable_executable := compile_portable_executable }
  M.bind (M.call (.compileCall compile_opts) (be.compile computation compile_opts))
    (fun executable =>
  M.bind (⟨[], be.executableFingerprint executable⟩ : M (Option String)) (fun fingerprint =>
  M.pure ⟨executable, fingerprint⟩))

/-- The binary-chunk collection loop of the tuple path of
`ExlaClient::TransferToInfeed` (exla_client.cc:226-236). -/
def collectBinaryChunks (data : List ErlTerm) : Except XlaError (List Bytes) :=
  match data with
  | [] => .ok []
  | .binary b :: rest =>
    match collectBinaryChunks rest with
    | .ok bs => .ok (b :: bs)
    | .error e => .error e
  | .other :: _ => .error (.invalidArgument "infeed operation expects a list of binaries")

/-- `ExlaClient::TransferToInfeed` (exla_client.cc:211-264).  Tuple
shapes: nested tuples are rejected up front; otherwise every supplied
chunk is collected into one borrowing literal, the device is resolved
and the transfer issued.  Non-tuple shapes: exactly the first chunk is
taken (the fast path never walks the tail), the device is resolved and
the transfer issued. -/
def ExlaClient.TransferToInfeed (be : Backend) (data : List ErlTerm)
    (shape : Shape) (device_id : Int) : M Unit :=
  if shape.IsTuple then
    if shape.IsNestedTuple then
      M.throw (.invalidArgument "nested tuples are not supported in infeed operation")
    else
      match collectBinaryChunks data with
      | .error e => M.throw e
      | .ok buf_ptrs =>
        let literal : BorrowingLiteral := ⟨buf_ptrs, shape⟩
        M.bind (M.call (.lookupDevice device_id) (be.lookupDevice device_id)) (fun device =>
        M.call (.infeedTransfer device literal) (be.transferToInfeed device literal))
  else
    match data with
    | [] => M.throw (.invalidArgument "infeed operation expects a list of binaries")
    | .other :: _ => M.throw (.invalidArgument "infeed operation expects a list of binaries")
    | .binary bin :: _ =>
      let literal : BorrowingLiteral := ⟨[bin], shape⟩
      M.bind (M.call (.lookupDevice device_id) (be.lookupDevice device_id)) (fun device =>
      M.call (.infeedTransfer device literal) (be.transferToInfeed device literal))

/-- `ExlaClient::TransferFromOutfeed` (exla_client.cc:266-282): resolve
the device, receive one literal of the given shape from the outfeed
queue, return its bytes. -/
def ExlaClient.TransferFromOutfeed (be : Backend) (device_id : Int) (shape : Shape) :
    M Bytes :=
  M.bind (M.call (.lookupDevice device_id) (be.lookupDevice device_id)) (fun device =>
  M.bind (M.call (.outfeedTransfer device shape) (be.transferFromOutfeed device shape))
    (fun literal =>
  M.pure literal.data))

/-! ### Concrete fixtures used to exercise the model. -/

def testLiteral : Literal := ⟨Shape.MakeShape 11 [4], [1, 2, 3, 4]⟩

def testPjRtBuffer : PjRtBuffer :=
  ⟨false, .ok (), .ok testLiteral, Shape.MakeShape 11 [4]⟩

def testExlaBuffer : ExlaBuffer := ⟨testPjRtBuffer, false⟩

/-- A small healthy backend: devices 0 and 1 exist, every primitive
succeeds. -/
def testBackend : Backend where
  lookupDevice := fun id =>
    if id = 0 ∨ id = 1 then .ok ⟨id⟩ else .error (.notFound "device not found")
  bufferFromHostBuffer := fun data shape _ => .ok ⟨false, .ok (), .ok ⟨shape, data⟩, shape⟩
  relayout := fun l s => ⟨s, l.data.reverse⟩
  compile := fun _ _ => .ok ⟨7⟩
  executableFingerprint := fun _ => .ok (some "fingerprint-a")
  executePortable := fun _ _ _ _ => .ok [testPjRtBuffer]
  execute := fun _ _ _ => .ok [[testPjRtBuffer]]
  transferToInfeed := fun _ _ => .ok ()
  transferFromOutfeed := fun _ shape => .ok ⟨shape, [9, 9]⟩

/-- A backend on which every device lookup fails. -/
def failBackend : Backend :=
  { testBackend with lookupDevice := fun _ => .error (.notFound "no device") }

/-! ### Helper lemmas. -/

theorem copyLiteral_full (l : Literal) (k : Int)
    (h : k < 0 ∨ k > (l.data.length : Int)) : CopyLiteralToBinary l k = l.data := by
  unfold CopyLiteralToBinary
  simp only [if_pos h, Int.toNat_natCast, List.take_length]

theorem copyLiteral_take (l : Literal) (k : Int) (h0 : 0 ≤ k)
    (h1 : k ≤ (l.data.length : Int)) : CopyLiteralToBinary l k = l.data.take k.toNat := by
  unfold CopyLiteralToBinary
  have hc : ¬(k < 0 ∨ k > (l.data.length : Int)) := by push_neg; exact ⟨h0, h1⟩
  simp only [if_neg hc]

/-- Evaluation of `ToBinary` on a ready, readable buffer: the result is a
clamped copy of one fixed literal (the fetched one, relayouted when the
layouts differ). -/
theorem toBinary_eval (be : Backend) (b : ExlaBuffer) (lit : Literal)
    (hready : b.buffer.ready = .ok ()) (hlit : b.buffer.literal = .ok lit) :
    ∃ chosen : Literal, ∀ size : Int,
      (ExlaBuffer.ToBinary be b size).result = .ok (CopyLiteralToBinary chosen size) := by
  refine ⟨if LayoutsInShapesEqual
      (Shape.MakeShape b.buffer.on_device_shape.elementType b.buffer.on_device_shape.dimensions)
      lit.shape
    then lit
    else be.relayout lit
      (Shape.MakeShape b.buffer.on_device_shape.elementType b.buffer.on_device_shape.dimensions),
    ?_⟩
  intro size
  unfold ExlaBuffer.ToBinary
  simp [M.bind, hready, hlit]
  split <;> simp [M.pure]

/-! ### Claims. -/

/-- C1: the first `Deallocate` on a not-yet-deallocated buffer releases
its device memory (the buffer becomes deleted) and succeeds, and any
subsequent `Deallocate` fails with a precondition error. -/
theorem C1_deallocate_once_then_precondition_error (b : ExlaBuffer)
    (h : b.buffer.deleted = false) :
    ∃ b', ExlaBuffer.Deallocate b = .ok b' ∧ b'.buffer.deleted = true ∧
      ExlaBuffer.Deallocate b' =
        .error (.failedPrecondition "Attempt to deallocate already deallocated buffer.") := by
  refine ⟨{ b with buffer := { b.buffer with deleted := true } }, ?_, rfl, ?_⟩
  · unfold ExlaBuffer.Deallocate
    rw [h]
    simp
  · unfold ExlaBuffer.Deallocate
    simp

theorem C1_witness :
    testExlaBuffer.buffer.deleted = false ∧
    ∃ b', ExlaBuffer.Deallocate testExlaBuffer = .ok b' ∧ b'.buffer.deleted = true ∧
      ExlaBuffer.Deallocate b' =
        .error (.failedPrecondition "Attempt to deallocate already deallocated buffer.") :=
  ⟨rfl, C1_deallocate_once_then_precondition_error testExlaBuffer rfl⟩

/-- C2: on a live (ready, readable) buffer, `ToBinary(max_size)` returns
the full serialization when `max_size` is negative or exceeds its length,
and exactly its first `max_size` bytes when `0 ≤ max_size ≤ length`. -/
theorem C2_toBinary_size_clamping (be : Backend) (b : ExlaBuffer) (lit : Literal)
    (hready : b.buffer.ready = .ok ()) (hlit : b.buffer.literal = .ok lit) :
    ∃ full : Bytes,
      (ExlaBuffer.ToBinary be b (-1)).result = .ok full ∧
      ∀ k : Int,
        ((k < 0 ∨ k > (full.length : Int)) →
          (ExlaBuffer.ToBinary be b k).result = .ok full) ∧
        (0 ≤ k → k ≤ (full.length : Int) →
          (ExlaBuffer.ToBinary be b k).result = .ok (full.take k.toNat)) := by
  obtain ⟨chosen, hkey⟩ := toBinary_eval be b lit hready hlit
  refine ⟨chosen.data, ?_, fun k => ⟨fun hk => ?_, fun hk0 hk1 => ?_⟩⟩
  · rw [hkey (-1), copyLiteral_full chosen (-1) (Or.inl (by norm_num))]
  · rw [hkey k, copyLiteral_full chosen k hk]
  · rw [hkey k, copyLiteral_take chosen k hk0 hk1]

theorem C2_witness :
    testExlaBuffer.buffer.ready = .ok () ∧
    testExlaBuffer.buffer.literal = .ok testLiteral ∧
    ∃ full : Bytes,
      (ExlaBuffer.ToBinary testBackend testExlaBuffer (-1)).result = .ok full ∧
      ∀ k : Int,
        ((k < 0 ∨ k > (full.length : Int)) →
          (ExlaBuffer.ToBinary testBackend testExlaBuffer k).result = .ok full) ∧
        (0 ≤ k → k ≤ (full.length : Int) →
          (ExlaBuffer.ToBinary testBackend testExlaBuffer k).result = .ok (full.take k.toNat)) :=
  ⟨rfl, rfl, C2_toBinary_size_clamping testBackend testExlaBuffer testLiteral rfl rfl⟩

/-- A nested tuple is in particular a tuple. -/
theorem isTuple_of_isNestedTuple {s : Shape} (h : s.IsNestedTuple = true) :
    s.IsTuple = true := by
  cases s with
  | array t d l => simp [Shape.IsNestedTuple] at h
  | tuple es => rfl

/-- C7: `TransferToInfeed` on a shape that is a tuple containing a nested
tuple fails with an invalid-argument error for every chunk list, and its
trace is empty — no device lookup and no transfer is attempted. -/
theorem C7_infeed_rejects_nested_tuples (be : Backend) (data : List ErlTerm)
    (shape : Shape) (device_id : Int) (h : shape.IsNestedTuple = true) :
    ExlaClient.TransferToInfeed be data shape device_id =
      ⟨[], .error (.invalidArgument "nested tuples are not supported in infeed operation")⟩ := by
  unfold ExlaClient.TransferToInfeed
  simp [isTuple_of_isNestedTuple h, h, M.throw]

theorem C7_witness :
    (Shape.tuple [Shape.tuple [Shape.MakeShape 11 [2]]]).IsNestedTuple = true ∧
    ExlaClient.TransferToInfeed testBackend [ErlTerm.binary [1], ErlTerm.binary [2]]
        (Shape.tuple [Shape.tuple [Shape.MakeShape 11 [2]]]) 0 =
      ⟨[], .error (.invalidArgument "nested tuples are not supported in infeed operation")⟩ :=
  ⟨rfl, C7_infeed_rejects_nested_tuples testBackend [ErlTerm.binary [1], ErlTerm.binary [2]]
    (Shape.tuple [Shape.tuple [Shape.MakeShape 11 [2]]]) 0 rfl⟩

/-- C8: `TransferToInfeed` on a non-tuple shape whose first chunk is a
binary behaves identically whatever follows the first chunk, and — once
the device resolves — transfers exactly that first chunk. -/
theorem C8_infeed_nontuple_consumes_first_chunk (be : Backend) (bin : Bytes)
    (rest : List ErlTerm) (shape : Shape) (device_id : Int)
    (h : shape.IsTuple = false) :
    ExlaClient.TransferToInfeed be (ErlTerm.binary bin :: rest) shape device_id =
      ExlaClient.TransferToInfeed be [ErlTerm.binary bin] shape device_id ∧
    ∀ dev, be.lookupDevice device_id = .ok dev →
      ExlaClient.TransferToInfeed be (ErlTerm.binary bin :: rest) shape device_id =
        ⟨[.lookupDevice device_id, .infeedTransfer dev ⟨[bin], shape⟩],
          be.transferToInfeed dev ⟨[bin], shape⟩⟩ := by
  constructor
  · unfold ExlaClient.TransferToInfeed
    simp [h]
  · intro dev hdev
    unfold ExlaClient.TransferToInfeed
    simp [h, M.bind, hdev]

theorem C8_witness :
    (Shape.MakeShape 11 [2]).IsTuple = false ∧
    (ExlaClient.TransferToInfeed testBackend [ErlTerm.binary [5, 6], ErlTerm.binary [7]]
        (Shape.MakeShape 11 [2]) 0 =
      ExlaClient.TransferToInfeed testBackend [ErlTerm.binary [5, 6]]
        (Shape.MakeShape 11 [2]) 0 ∧
    ∀ dev, testBackend.lookupDevice 0 = .ok dev →
      ExlaClient.TransferToInfeed testBackend [ErlTerm.binary [5, 6], ErlTerm.binary [7]]
          (Shape.MakeShape 11 [2]) 0 =
        ⟨[.lookupDevice 0, .infeedTransfer dev ⟨[[5, 6]], Shape.MakeShape 11 [2]⟩],
          testBackend.transferToInfeed dev ⟨[[5, 6]], Shape.MakeShape 11 [2]⟩⟩) :=
  ⟨rfl, C8_infeed_nontuple_consumes_first_chunk testBackend [5, 6] [ErlTerm.binary [7]]
    (Shape.MakeShape 11 [2]) 0 rfl⟩

/-- With `keep_on_device`, result unpacking always succeeds and yields
one tracked handle per result buffer. -/
theorem unpackAux_keep_result (be : Backend) (res : List PjRtBuffer) :
    (unpackResultAux be res true).result =
      .ok (res.map (fun pb => OutTerm.bufferTerm ⟨pb, false⟩)) := by
  induction res with
  | nil => rfl
  | cons pb rest ih => simp [unpackResultAux, M.bind, M.emit, M.pure, ih]

/-- With `keep_on_device`, the only events are handle registrations. -/
theorem unpackAux_keep_trace (be : Backend) (res : List PjRtBuffer) :
    (unpackResultAux be res true).trace =
      res.map (fun pb => Event.makeBufferTerm ⟨pb, false⟩) := by
  induction res with
  | nil => rfl
  | cons pb rest ih =>
    simp [unpackResultAux, M.bind, M.emit, M.pure, ih, unpackAux_keep_result]

/-- Without `keep_on_device`, a successful unpacking yields only host
binaries and has released every result buffer. -/
theorem unpackAux_host_result (be : Backend) (res : List PjRtBuffer) :
    ∀ terms, (unpackResultAux be res false).result = .ok terms →
      (∀ t ∈ terms, ∃ bs, t = OutTerm.binaryTerm bs) ∧
      (∀ pb ∈ res, Event.deleteBuffer pb ∈ (unpackResultAux be res false).trace) := by
  induction res with
  | nil =>
    intro terms hterms
    have hnil : terms = [] := by
      simpa [unpackResultAux, M.pure] using hterms.symm
    subst hnil
    exact ⟨by simp, by simp⟩
  | cons pb rest ih =>
    intro terms hterms
    cases htb : (ExlaBuffer.ToBinary be ⟨pb, false⟩ (-1)).result with
    | error e =>
      exfalso
      simp [unpackResultAux, M.bind, htb] at hterms
    | ok bin =>
      cases haux : (unpackResultAux be rest false).result with
      | error e =>
        exfalso
        simp [unpackResultAux, M.bind, M.emit, M.pure, htb, haux] at hterms
      | ok terms' =>
        have hterms' : terms = OutTerm.binaryTerm bin :: terms' := by
          simp [unpackResultAux, M.bind, M.emit, M.pure, htb, haux] at hterms
          exact hterms.symm
        obtain ⟨hbin', hdel'⟩ := ih terms' haux
        constructor
        · intro t ht
          rw [hterms'] at ht
          rcases List.mem_cons.mp ht with h | h
          · exact ⟨bin, h⟩
          · exact hbin' t h
        · intro pb' hpb'
          have htr : (unpackResultAux be (pb :: rest) false).trace =
              (ExlaBuffer.ToBinary be ⟨pb, false⟩ (-1)).trace ++
                ([Event.deleteBuffer pb] ++ ((unpackResultAux be rest false).trace ++ [])) := by
            simp [unpackResultAux, M.bind, M.emit, M.pure, htb, haux]
          rcases List.mem_cons.mp hpb' with h | h
          · rw [htr, h]
            simp
          · rw [htr]
            simp only [List.mem_append]
            exact Or.inr (Or.inr (Or.inl (hdel' pb' h)))

/-- C5: a successful `UnpackResult` with `keep_on_device = true` returns
only device buffer handles and copies no output data to host (no
`ToLiteral` readback occurs); with `keep_on_device = false` it returns
only host binaries — no device handle is reachable from the outputs —
and has released every output's device buffer. -/
theorem C5_unpack_result_outputs (be : Backend) (res : List PjRtBuffer) :
    ((∀ t ∈ res.map (fun pb => OutTerm.bufferTerm (⟨pb, false⟩ : ExlaBuffer)),
        ∃ b, t = OutTerm.bufferTerm b) ∧
      (UnpackResult be res true).result =
        .ok (res.map (fun pb => OutTerm.bufferTerm ⟨pb, false⟩), 0) ∧
      (∀ pb, Event.toLiteral pb ∉ (UnpackResult be res true).trace)) ∧
    (∀ terms n, (UnpackResult be res false).result = .ok (terms, n) →
      (∀ t ∈ terms, ∃ bs, t = OutTerm.binaryTerm bs) ∧
      (∀ pb ∈ res, Event.deleteBuffer pb ∈ (UnpackResult be res false).trace)) := by
  refine ⟨⟨by simp, ?_, ?_⟩, ?_⟩
  · rw [UnpackResult, M.bind_result_ok _ (unpackAux_keep_result be res)]
    rfl
  · intro pb
    rw [UnpackResult, M.bind_trace_ok _ (unpackAux_keep_result be res),
      unpackAux_keep_trace]
    simp [M.pure]
  · intro terms n hok
    cases haux : (unpackResultAux be res false).result with
    | error e =>
      exfalso
      rw [UnpackResult, M.bind_result_err _ haux] at hok
      exact Except.noConfusion hok
    | ok terms' =>
      rw [UnpackResult, M.bind_result_ok _ haux] at hok
      simp only [M.pure_result, Except.ok.injEq, Prod.mk.injEq] at hok
      obtain ⟨hteq, hneq⟩ := hok
      subst hteq
      obtain ⟨hbin, hdel⟩ := unpackAux_host_result be res terms' haux
      refine ⟨hbin, fun pb hpb => ?_⟩
      rw [UnpackResult, M.bind_trace_ok _ haux]
      simp only [List.mem_append]
      exact Or.inl (hdel pb hpb)

theorem C5_witness :
    ((∀ t ∈ [testPjRtBuffer].map (fun pb => OutTerm.bufferTerm (⟨pb, false⟩ : ExlaBuffer)),
        ∃ b, t = OutTerm.bufferTerm b) ∧
      (UnpackResult testBackend [testPjRtBuffer] true).result =
        .ok ([testPjRtBuffer].map (fun pb => OutTerm.bufferTerm ⟨pb, false⟩), 0) ∧
      (∀ pb, Event.toLiteral pb ∉ (UnpackResult testBackend [testPjRtBuffer] true).trace)) ∧
    (∀ terms n, (UnpackResult testBackend [testPjRtBuffer] false).result = .ok (terms, n) →
      (∀ t ∈ terms, ∃ bs, t = OutTerm.binaryTerm bs) ∧
      (∀ pb ∈ [testPjRtBuffer],
        Event.deleteBuffer pb ∈ (UnpackResult testBackend [testPjRtBuffer] false).trace)) :=
  C5_unpack_result_outputs testBackend [testPjRtBuffer]

/-- C6: `Compile` strips the explicit layout of each argument shape
(keeping only element type and dimensions), always passes the
arguments-not-tupled policy, and on success stores the backend's
optional fingerprint in the returned executable. -/
theorem C6_compile_canonicalizes_and_fingerprints (be : Backend)
    (computation : XlaComputation) (argument_layouts : List Shape)
    (options : ExecutableBuildOptions) (portable : Bool) :
    compileLayouts argument_layouts =
      argument_layouts.map (fun s => Shape.array s.elementType s.dimensions none) ∧
    Event.compileCall ⟨compileLayouts argument_layouts, false, options, portable⟩ ∈
      (ExlaClient.Compile be computation argument_layouts options portable).trace ∧
    (∀ pexec fp,
      be.compile computation ⟨compileLayouts argument_layouts, false, options, portable⟩ =
        .ok pexec →
      be.executableFingerprint pexec = .ok fp →
      (ExlaClient.Compile be computation argument_layouts options portable).result =
        .ok ⟨pexec, fp⟩) := by
  refine ⟨rfl, ?_, ?_⟩
  · unfold ExlaClient.Compile
    exact M.mem_bind_left _ (by simp)
  · intro pexec fp hc hf
    unfold ExlaClient.Compile
    simp [M.bind, hc, hf, M.pure]

theorem C6_witness :
    compileLayouts [Shape.MakeShape 11 [2, 3], Shape.tuple []] =
      [Shape.MakeShape 11 [2, 3], Shape.tuple []].map
        (fun s => Shape.array s.elementType s.dimensions none) ∧
    Event.compileCall
        ⟨compileLayouts [Shape.MakeShape 11 [2, 3], Shape.tuple []], false, 0, true⟩ ∈
      (ExlaClient.Compile testBackend 5 [Shape.MakeShape 11 [2, 3], Shape.tuple []] 0
        true).trace ∧
    (∀ pexec fp,
      testBackend.compile 5
          ⟨compileLayouts [Shape.MakeShape 11 [2, 3], Shape.tuple []], false, 0, true⟩ =
        .ok pexec →
      testBackend.executableFingerprint pexec = .ok fp →
      (ExlaClient.Compile testBackend 5 [Shape.MakeShape 11 [2, 3], Shape.tuple []] 0
          true).result = .ok ⟨pexec, fp⟩) :=
  C6_compile_canonicalizes_and_fingerprints testBackend 5
    [Shape.MakeShape 11 [2, 3], Shape.tuple []] 0 true

/-- `BufferFromBinary` only performs a device lookup and a host-to-device
transfer, both against its own `device_id`. -/
theorem bufferFromBinary_trace_events (be : Backend) (d : Bytes) (s : Shape)
    (did : Int) (flag : Bool) :
    ∀ ev ∈ (ExlaClient.BufferFromBinary be d s did flag).trace,
      ev = .lookupDevice did ∨ ev = .bufferFromHost d s did := by
  unfold ExlaClient.BufferFromBinary
  cases hL : be.lookupDevice did with
  | error e => simp [M.bind, hL]
  | ok dev =>
    cases hB : be.bufferFromHostBuffer d s dev with
    | error e => simp [M.bind, hL, hB]
    | ok buf => simp [M.bind, hL, hB, M.pure]

/-- Every event of argument unpacking is a lookup of, or a transfer to,
the unpacking device. -/
theorem unpack_trace_events (be : Backend) (args : List RunArgTerm) (did : Int) :
    ∀ ev ∈ (UnpackRunArguments be args did).trace,
      ev = .lookupDevice did ∨ ∃ d s, ev = .bufferFromHost d s did := by
  induction args with
  | nil => simp [UnpackRunArguments, M.pure]
  | cons a rest ih =>
    cases a with
    | binShape d s =>
      rw [UnpackRunArguments]
      refine M.trace_all_bind ?_ ?_
      · intro ev hev
        rcases bufferFromBinary_trace_events be d s did true ev hev with h | h
        · exact Or.inl h
        · exact Or.inr ⟨d, s, h⟩
      · intro buf
        refine M.trace_all_bind ih ?_
        intro bufs
        simp [M.pure]
    | bufferRef buf =>
      rw [UnpackRunArguments]
      refine M.trace_all_bind ih ?_
      intro bufs
      simp [M.pure]
    | malformed => simp [UnpackRunArguments, M.throw]

/-- Every event of the block-and-track loop is a wait or a handle
registration. -/
theorem blockAndTrack_trace_events (bufs : List ExlaBuffer) :
    ∀ ev ∈ (blockAndTrack bufs).trace,
      (∃ b, ev = .blockUntilReady b) ∨ (∃ b, ev = .makeBufferTerm b) := by
  induction bufs with
  | nil => simp [blockAndTrack, M.pure]
  | cons buf rest ih =>
    rw [blockAndTrack]
    cases hr : buf.release_after_run with
    | false =>
      simp only [hr, Bool.false_eq_true, if_false]
      exact ih
    | true =>
      simp only [hr, if_true]
      refine M.trace_all_bind ?_ ?_
      · intro ev hev
        simp [ExlaBuffer.BlockHostUntilReady] at hev
        exact Or.inl ⟨buf.buffer, hev⟩
      · intro u
        refine M.trace_all_bind ?_ ?_
        · intro ev hev
          simp at hev
          exact Or.inr ⟨buf, hev⟩
        · intro v
          exact ih

/-- `Run` with a non-negative device id: unpack on that device, block and
track, look the device up, execute portably, unpack the one result set. -/
theorem run_eq_pos (be : Backend) (ex : ExlaExecutable) (args : List RunArgTerm)
    (keep : Bool) (did : Int) (hdd : did ≥ 0) :
    ExlaExecutable.Run be ex args keep did =
      M.bind (UnpackRunArguments be args did) (fun input_buffers =>
      M.bind (blockAndTrack input_buffers) (fun _ =>
      M.bind (M.call (.lookupDevice did) (be.lookupDevice did)) (fun device =>
      M.bind (M.call (.executePortable device)
          (be.executePortable ex.executable (input_buffers.map ExlaBuffer.buffer) device
            runOptions))
        (fun result => UnpackResult be result keep)))) := by
  unfold ExlaExecutable.Run
  simp only [if_pos hdd]

/-- `Run` with a negative device id: unpack on device 0, block and track,
execute against the default configuration, unpack the first replica's
result set. -/
theorem run_eq_neg (be : Backend) (ex : ExlaExecutable) (args : List RunArgTerm)
    (keep : Bool) (did : Int) (hdd : ¬did ≥ 0) :
    ExlaExecutable.Run be ex args keep did =
      M.bind (UnpackRunArguments be args 0) (fun input_buffers =>
      M.bind (blockAndTrack input_buffers) (fun _ =>
      M.bind (M.call .executeDefault
          (be.execute ex.executable [input_buffers.map ExlaBuffer.buffer] runOptions))
        (fun result =>
          match result.head? with
          | some r0 => UnpackResult be r0 keep
          | none => M.throw (.backend "executable produced no replica results")))) := by
  unfold ExlaExecutable.Run
  simp only [if_neg hdd]

/-- C9: when the device lookup for `device_id` fails with `e`, each
operation taking a device id fails rather than proceeding:
`BufferFromBinary` and `TransferFromOutfeed` return exactly the lookup
error after the lookup alone, `TransferToInfeed` always errors and never
reaches a transfer, and `Run` with that non-negative `device_id` always
errors and never reaches a portable execution. -/
theorem C9_unresolved_device_fails_ops (be : Backend) (device_id : Int) (e : XlaError)
    (h : be.lookupDevice device_id = .error e) :
    (∀ bin shape flag, ExlaClient.BufferFromBinary be bin shape device_id flag =
      ⟨[.lookupDevice device_id], .error e⟩) ∧
    (∀ shape, ExlaClient.TransferFromOutfeed be device_id shape =
      ⟨[.lookupDevice device_id], .error e⟩) ∧
    (∀ data shape,
      (∃ err, (ExlaClient.TransferToInfeed be data shape device_id).result = .error err) ∧
      (∀ dev lit, Event.infeedTransfer dev lit ∉
        (ExlaClient.TransferToInfeed be data shape device_id).trace)) ∧
    (∀ ex args keep, device_id ≥ 0 →
      (∃ err, (ExlaExecutable.Run be ex args keep device_id).result = .error err) ∧
      (∀ dev, Event.executePortable dev ∉
        (ExlaExecutable.Run be ex args keep device_id).trace)) := by
  refine ⟨?_, ?_, ?_, ?_⟩
  · intro bin shape flag
    unfold ExlaClient.BufferFromBinary
    simp [M.bind, h]
  · intro shape
    unfold ExlaClient.TransferFromOutfeed
    simp [M.bind, h]
  · intro data shape
    unfold ExlaClient.TransferToInfeed
    cases hT : shape.IsTuple with
    | true =>
      cases hN : shape.IsNestedTuple with
      | true =>
        exact ⟨⟨.invalidArgument "nested tuples are not supported in infeed operation",
          by simp [hT, hN, M.throw]⟩, by simp [hT, hN, M.throw]⟩
      | false =>
        cases hC : collectBinaryChunks data with
        | error err =>
          exact ⟨⟨err, by simp [hT, hN, hC, M.throw]⟩, by simp [hT, hN, hC, M.throw]⟩
        | ok chunks =>
          exact ⟨⟨e, by simp [hT, hN, hC, M.bind, h]⟩, by simp [hT, hN, hC, M.bind, h]⟩
    | false =>
      cases data with
      | nil =>
        exact ⟨⟨.invalidArgument "infeed operation expects a list of binaries",
          by simp [hT, M.throw]⟩, by simp [hT, M.throw]⟩
      | cons hd tl =>
        cases hd with
        | other =>
          exact ⟨⟨.invalidArgument "infeed operation expects a list of binaries",
            by simp [hT, M.throw]⟩, by simp [hT, M.throw]⟩
        | binary bin =>
          exact ⟨⟨e, by simp [hT, M.bind, h]⟩, by simp [hT, M.bind, h]⟩
  · intro ex args keep hdd
    rw [run_eq_pos be ex args keep device_id hdd]
    constructor
    · cases hU : (UnpackRunArguments be args device_id).result with
      | error eu =>
        exact ⟨eu, M.bind_result_err _ hU⟩
      | ok bufs =>
        rw [M.bind_result_ok _ hU]
        cases hB2 : (blockAndTrack bufs).result with
        | error eb => exact ⟨eb, M.bind_result_err _ hB2⟩
        | ok u =>
          rw [M.bind_result_ok _ hB2]
          exact ⟨e, M.bind_result_err _ (by simp [h])⟩
    · have hP : ∀ ev ∈ (M.bind (UnpackRunArguments be args device_id)
          (fun input_buffers =>
          M.bind (blockAndTrack input_buffers) (fun _ =>
          M.bind (M.call (.lookupDevice device_id) (be.lookupDevice device_id)) (fun device =>
          M.bind (M.call (.executePortable device)
              (be.executePortable ex.executable (input_buffers.map ExlaBuffer.buffer) device
                runOptions))
            (fun result => UnpackResult be result keep))))).trace,
          ∀ dv, ev ≠ .executePortable dv := by
        refine M.trace_all_bind ?_ ?_
        · intro ev hev dv
          rcases unpack_trace_events be args device_id ev hev with h1 | ⟨d', s', h1⟩ <;>
            simp [h1]
        · intro bufs
          refine M.trace_all_bind ?_ ?_
          · intro ev hev dv
            rcases blockAndTrack_trace_events bufs ev hev with ⟨b, h1⟩ | ⟨b, h1⟩ <;> simp [h1]
          · intro u ev hev dv
            rw [M.bind_trace_err _ (by simp [h] : (M.call (.lookupDevice device_id)
              (be.lookupDevice device_id)).result = .error e)] at hev
            simp at hev
            simp [hev]
      intro dev hmem
      exact hP _ hmem dev rfl

theorem C9_witness :
    failBackend.lookupDevice 3 = .error (.notFound "no device") ∧
    ((∀ bin shape flag, ExlaClient.BufferFromBinary failBackend bin shape 3 flag =
      ⟨[.lookupDevice 3], .error (.notFound "no device")⟩) ∧
    (∀ shape, ExlaClient.TransferFromOutfeed failBackend 3 shape =
      ⟨[.lookupDevice 3], .error (.notFound "no device")⟩) ∧
    (∀ data shape,
      (∃ err, (ExlaClient.TransferToInfeed failBackend data shape 3).result = .error err) ∧
      (∀ dev lit, Event.infeedTransfer dev lit ∉
        (ExlaClient.TransferToInfeed failBackend data shape 3).trace)) ∧
    (∀ ex args keep, (3 : Int) ≥ 0 →
      (∃ err, (ExlaExecutable.Run failBackend ex args keep 3).result = .error err) ∧
      (∀ dev, Event.executePortable dev ∉
        (ExlaExecutable.Run failBackend ex args keep 3).trace))) :=
  ⟨rfl, C9_unresolved_device_fails_ops failBackend 3 (.notFound "no device") rfl⟩

/-- `ToBinary` only waits on the buffer and fetches its literal. -/
theorem toBinary_trace_events (be : Backend) (b : ExlaBuffer) (size : Int) :
    ∀ ev ∈ (ExlaBuffer.ToBinary be b size).trace,
      ev = .blockUntilReady b.buffer ∨ ev = .toLiteral b.buffer := by
  unfold ExlaBuffer.ToBinary
  cases hr : b.buffer.ready with
  | error e => simp [M.bind, hr]
  | ok u =>
    cases hl : b.buffer.literal with
    | error e => simp [M.bind, hr, hl]
    | ok lit =>
      simp only [M.bind, M.call_result, M.call_trace, hr, hl]
      split <;> simp [M.pure]

/-- Result unpacking never looks a device up and never starts a
host-to-device transfer. -/
theorem unpackAux_trace_events (be : Backend) (res : List PjRtBuffer) (keep : Bool) :
    ∀ ev ∈ (unpackResultAux be res keep).trace,
      (∃ b, ev = .blockUntilReady b) ∨ (∃ b, ev = .toLiteral b) ∨
      (∃ b, ev = .makeBufferTerm b) ∨ (∃ b, ev = .deleteBuffer b) := by
  induction res with
  | nil => simp [unpackResultAux, M.pure]
  | cons pb rest ih =>
    rw [unpackResultAux]
    refine M.trace_all_bind ?_ ?_
    · cases keep with
      | true =>
        intro ev hev
        simp [M.bind, M.emit, M.pure] at hev
        exact Or.inr (Or.inr (Or.inl ⟨⟨pb, false⟩, hev⟩))
      | false =>
        simp only [Bool.false_eq_true, if_false]
        refine M.trace_all_bind ?_ ?_
        · intro ev hev
          rcases toBinary_trace_events be ⟨pb, false⟩ (-1) ev hev with h | h
          · exact Or.inl ⟨_, h⟩
          · exact Or.inr (Or.inl ⟨_, h⟩)
        · intro bin
          refine M.trace_all_bind ?_ ?_
          · intro ev hev
            simp at hev
            exact Or.inr (Or.inr (Or.inr ⟨pb, hev⟩))
          · intro u
            simp [M.pure]
    · intro term
      refine M.trace_all_bind ih ?_
      intro terms
      simp [M.pure]

/-- A successful `BufferFromBinary` performed exactly its lookup and its
transfer, in that order. -/
theorem bufferFromBinary_ok_trace (be : Backend) (d : Bytes) (s : Shape) (did : Int)
    (flag : Bool) (pb : ExlaBuffer)
    (hok : (ExlaClient.BufferFromBinary be d s did flag).result = .ok pb) :
    (ExlaClient.BufferFromBinary be d s did flag).trace =
      [.lookupDevice did, .bufferFromHost d s did] := by
  unfold ExlaClient.BufferFromBinary at hok ⊢
  cases hL : be.lookupDevice did with
  | error e => simp [M.bind, hL] at hok
  | ok dev =>
    cases hB : be.bufferFromHostBuffer d s dev with
    | error e => simp [M.bind, hL, hB] at hok
    | ok buf => simp [M.bind, hL, hB, M.pure]

/-- Successful argument unpacking, pointwise: buffer references pass
through unchanged at their index; binaries are materialized through
`BufferFromBinary` on the unpacking device, whose transfer event is in
the unpacking trace. -/
theorem unpack_pointwise (be : Backend) (args : List RunArgTerm) (did : Int) :
    ∀ bufs, (UnpackRunArguments be args did).result = .ok bufs →
      bufs.length = args.length ∧
      (∀ (j : Nat) b, args[j]? = some (RunArgTerm.bufferRef b) → bufs[j]? = some b) ∧
      (∀ (j : Nat) dt sh, args[j]? = some (RunArgTerm.binShape dt sh) →
        (∃ pb, bufs[j]? = some pb ∧
          (ExlaClient.BufferFromBinary be dt sh did true).result = .ok pb) ∧
        Event.bufferFromHost dt sh did ∈ (UnpackRunArguments be args did).trace) := by
  induction args with
  | nil =>
    intro bufs hU
    have hnil : bufs = [] := by
      simpa [UnpackRunArguments, M.pure] using hU.symm
    subst hnil
    exact ⟨rfl, by simp, by simp⟩
  | cons a rest ih =>
    intro bufs hU
    cases a with
    | binShape dt0 sh0 =>
      rw [UnpackRunArguments] at hU
      cases hB : (ExlaClient.BufferFromBinary be dt0 sh0 did true).result with
      | error e =>
        rw [M.bind_result_err _ hB] at hU
        exact Except.noConfusion hU
      | ok buf0 =>
        rw [M.bind_result_ok _ hB] at hU
        cases hR : (UnpackRunArguments be rest did).result with
        | error e =>
          rw [M.bind_result_err _ hR] at hU
          exact Except.noConfusion hU
        | ok bufs' =>
          rw [M.bind_result_ok _ hR] at hU
          have hcons : bufs = buf0 :: bufs' := by
            simpa [M.pure] using hU.symm
          subst hcons
          obtain ⟨hlen, hrefs, hbins⟩ := ih bufs' hR
          have htr : (UnpackRunArguments be (RunArgTerm.binShape dt0 sh0 :: rest) did).trace =
              (ExlaClient.BufferFromBinary be dt0 sh0 did true).trace ++
                ((UnpackRunArguments be rest did).trace ++ []) := by
            rw [UnpackRunArguments, M.bind_trace_ok _ hB, M.bind_trace_ok _ hR]
            rfl
          refine ⟨by simp [hlen], ?_, ?_⟩
          · intro j b hj
            cases j with
            | zero => simp at hj
            | succ j' =>
              simp only [List.getElem?_cons_succ] at hj ⊢
              exact hrefs j' b hj
          · intro j dt sh hj
            cases j with
            | zero =>
              simp only [List.getElem?_cons_zero, Option.some.injEq] at hj
              obtain ⟨hdt, hsh⟩ := RunArgTerm.binShape.inj hj.symm
              subst hdt
              subst hsh
              refine ⟨⟨buf0, by simp, hB⟩, ?_⟩
              rw [htr, bufferFromBinary_ok_trace _ _ _ _ _ _ hB]
              simp
            | succ j' =>
              simp only [List.getElem?_cons_succ] at hj
              obtain ⟨⟨pb, hpb, hpbok⟩, hmem⟩ := hbins j' dt sh hj
              refine ⟨⟨pb, by simpa using hpb, hpbok⟩, ?_⟩
              rw [htr]
              simp only [List.mem_append]
              exact Or.inr (Or.inl hmem)
    | bufferRef b0 =>
      rw [UnpackRunArguments] at hU
      cases hR : (UnpackRunArguments be rest did).result with
      | error e =>
        rw [M.bind_result_err _ hR] at hU
        exact Except.noConfusion hU
      | ok bufs' =>
        rw [M.bind_result_ok _ hR] at hU
        have hcons : bufs = b0 :: bufs' := by
          simpa [M.pure] using hU.symm
        subst hcons
        obtain ⟨hlen, hrefs, hbins⟩ := ih bufs' hR
        have htr : (UnpackRunArguments be (RunArgTerm.bufferRef b0 :: rest) did).trace =
            (UnpackRunArguments be rest did).trace ++ [] := by
          rw [UnpackRunArguments, M.bind_trace_ok _ hR]
          rfl
        refine ⟨by simp [hlen], ?_, ?_⟩
        · intro j b hj
          cases j with
          | zero =>
            simp only [List.getElem?_cons_zero, Option.some.injEq] at hj ⊢
            rw [RunArgTerm.bufferRef.inj hj.symm]
          | succ j' =>
            simp only [List.getElem?_cons_succ] at hj ⊢
            exact hrefs j' b hj
        · intro j dt sh hj
          cases j with
          | zero => simp at hj
          | succ j' =>
            simp only [List.getElem?_cons_succ] at hj
            obtain ⟨⟨pb, hpb, hpbok⟩, hmem⟩ := hbins j' dt sh hj
            refine ⟨⟨pb, by simpa using hpb, hpbok⟩, ?_⟩
            rw [htr]
            simp only [List.mem_append]
            exact Or.inl hmem
    | malformed =>
      rw [UnpackRunArguments] at hU
      exact Except.noConfusion hU

/-- When every tracked buffer's transfer completes, the block-and-track
loop succeeds and has waited on and registered every
`release_after_run` buffer. -/
theorem blockAndTrack_ok (bufs : List ExlaBuffer)
    (h : ∀ buf ∈ bufs, buf.release_after_run = true → buf.buffer.ready = .ok ()) :
    (blockAndTrack bufs).result = .ok () ∧
    ∀ buf ∈ bufs, buf.release_after_run = true →
      Event.blockUntilReady buf.buffer ∈ (blockAndTrack bufs).trace ∧
      Event.makeBufferTerm buf ∈ (blockAndTrack bufs).trace := by
  induction bufs with
  | nil => exact ⟨rfl, by simp⟩
  | cons buf rest ih =>
    have hrest := ih (fun b hb hr => h b (List.mem_cons_of_mem _ hb) hr)
    rw [blockAndTrack]
    cases hr : buf.release_after_run with
    | false =>
      simp only [hr, Bool.false_eq_true, if_false]
      refine ⟨hrest.1, ?_⟩
      intro b hb hbr
      rcases List.mem_cons.mp hb with hbe | hbm
      · rw [hbe] at hbr
        rw [hbr] at hr
        exact Bool.noConfusion hr
      · exact hrest.2 b hbm hbr
    | true =>
      have hready : buf.buffer.ready = .ok () := h buf (List.mem_cons_self _ _) hr
      simp only [hr, if_true]
      have hblock : (ExlaBuffer.BlockHostUntilReady buf).result = .ok () := by
        simp [ExlaBuffer.BlockHostUntilReady, hready]
      have htr : (M.bind (ExlaBuffer.BlockHostUntilReady buf) (fun _ =>
          M.bind (M.emit (.makeBufferTerm buf)) (fun _ => blockAndTrack rest))).trace =
          [Event.blockUntilReady buf.buffer] ++
            ([Event.makeBufferTerm buf] ++ (blockAndTrack rest).trace) := by
        rw [M.bind_trace_ok _ hblock, M.bind_trace_ok _ (by rfl)]
        rfl
      have hres : (M.bind (ExlaBuffer.BlockHostUntilReady buf) (fun _ =>
          M.bind (M.emit (.makeBufferTerm buf)) (fun _ => blockAndTrack rest))).result =
          (blockAndTrack rest).result := by
        rw [M.bind_result_ok _ hblock, M.bind_result_ok _ (by rfl)]
      refine ⟨by rw [hres]; exact hrest.1, ?_⟩
      intro b hb hbr
      rcases List.mem_cons.mp hb with hbe | hbm
      · subst hbe
        rw [htr]
        simp
      · obtain ⟨h1, h2⟩ := hrest.2 b hbm hbr
        rw [htr]
        simp only [List.mem_append]
        exact ⟨Or.inr (Or.inr h1), Or.inr (Or.inr h2)⟩

theorem unpackResult_trace_events (be : Backend) (res : List PjRtBuffer) (keep : Bool) :
    ∀ ev ∈ (UnpackResult be res keep).trace,
      (∃ b, ev = .blockUntilReady b) ∨ (∃ b, ev = .toLiteral b) ∨
      (∃ b, ev = .makeBufferTerm b) ∨ (∃ b, ev = .deleteBuffer b) := by
  unfold UnpackResult
  refine M.trace_all_bind (unpackAux_trace_events be res keep) ?_
  intro terms
  simp [M.pure]

/-- With a negative device id, every device id appearing in `Run`'s trace
— in a lookup or in a host-to-device transfer — is device 0. -/
theorem run_neg_trace_device_zero (be : Backend) (ex : ExlaExecutable)
    (args : List RunArgTerm) (keep : Bool) (d : Int) (hdd : ¬d ≥ 0) :
    ∀ ev ∈ (ExlaExecutable.Run be ex args keep d).trace,
      (∀ dt sh i, ev = Event.bufferFromHost dt sh i → i = 0) ∧
      (∀ i, ev = Event.lookupDevice i → i = 0) := by
  rw [run_eq_neg be ex args keep d hdd]
  refine M.trace_all_bind ?_ ?_
  · intro ev hev
    rcases unpack_trace_events be args 0 ev hev with h1 | ⟨d', s', h1⟩ <;> subst h1
    · refine ⟨fun dt sh i hne => ?_, fun i hi => ?_⟩
      · simp at hne
      · simp at hi
        omega
    · refine ⟨fun dt sh i hne => ?_, fun i hi => ?_⟩
      · simp at hne
        omega
      · simp at hi
  · intro bufs
    refine M.trace_all_bind ?_ ?_
    · intro ev hev
      rcases blockAndTrack_trace_events bufs ev hev with ⟨b, h1⟩ | ⟨b, h1⟩ <;> subst h1 <;>
        exact ⟨fun dt sh i hne => by simp at hne, fun i hi => by simp at hi⟩
    · intro u
      refine M.trace_all_bind ?_ ?_
      · intro ev hev
        simp at hev
        subst hev
        exact ⟨fun dt sh i hne => by simp at hne, fun i hi => by simp at hi⟩
      · intro result ev hev
        cases hh : result.head? with
        | some r0 =>
          rw [hh] at hev
          rcases unpackResult_trace_events be r0 keep ev hev with
            ⟨b, h1⟩ | ⟨b, h1⟩ | ⟨b, h1⟩ | ⟨b, h1⟩ <;> subst h1 <;>
            exact ⟨fun dt sh i hne => by simp at hne, fun i hi => by simp at hi⟩
        | none =>
          rw [hh] at hev
          simp [M.throw] at hev

/-- C10: for `Run` with a negative device id, every host-bytes argument
is materialized on device 0 (all lookups and host-to-device transfers in
the trace name device 0, and each binary argument yields — at its index —
the buffer `BufferFromBinary` creates on device 0), while existing buffer
handles are passed through unchanged at their indices. -/
theorem C10_negative_device_materializes_on_zero (be : Backend) (ex : ExlaExecutable)
    (args : List RunArgTerm) (keep : Bool) (d : Int) (hd : d < 0) :
    (∀ dt sh i, Event.bufferFromHost dt sh i ∈
      (ExlaExecutable.Run be ex args keep d).trace → i = 0) ∧
    (∀ i, Event.lookupDevice i ∈ (ExlaExecutable.Run be ex args keep d).trace → i = 0) ∧
    (∀ bufs, (UnpackRunArguments be args 0).result = .ok bufs →
      (∀ (j : Nat) b, args[j]? = some (RunArgTerm.bufferRef b) → bufs[j]? = some b) ∧
      (∀ (j : Nat) dt sh, args[j]? = some (RunArgTerm.binShape dt sh) →
        (∃ pb, bufs[j]? = some pb ∧
          (ExlaClient.BufferFromBinary be dt sh 0 true).result = .ok pb) ∧
        Event.bufferFromHost dt sh 0 ∈ (ExlaExecutable.Run be ex args keep d).trace)) := by
  have hdd : ¬d ≥ 0 := not_le.mpr hd
  have hP := run_neg_trace_device_zero be ex args keep d hdd
  refine ⟨?_, ?_, ?_⟩
  · intro dt sh i hmem
    exact (hP _ hmem).1 dt sh i rfl
  · intro i hmem
    exact (hP _ hmem).2 i rfl
  · intro bufs hU
    obtain ⟨hlen, hrefs, hbins⟩ := unpack_pointwise be args 0 bufs hU
    refine ⟨hrefs, ?_⟩
    intro j dt sh hj
    obtain ⟨hex, hmem⟩ := hbins j dt sh hj
    refine ⟨hex, ?_⟩
    rw [run_eq_neg be ex args keep d hdd]
    exact M.mem_bind_left _ hmem

theorem C10_witness :
    (∀ dt sh i, Event.bufferFromHost dt sh i ∈
      (ExlaExecutable.Run testBackend ⟨⟨7⟩, none⟩
        [RunArgTerm.binShape [1, 2] (Shape.MakeShape 11 [2]),
          RunArgTerm.bufferRef testExlaBuffer] false (-1)).trace → i = 0) ∧
    (∀ i, Event.lookupDevice i ∈
      (ExlaExecutable.Run testBackend ⟨⟨7⟩, none⟩
        [RunArgTerm.binShape [1, 2] (Shape.MakeShape 11 [2]),
          RunArgTerm.bufferRef testExlaBuffer] false (-1)).trace → i = 0) ∧
    (∀ bufs, (UnpackRunArguments testBackend
        [RunArgTerm.binShape [1, 2] (Shape.MakeShape 11 [2]),
          RunArgTerm.bufferRef testExlaBuffer] 0).result = .ok bufs →
      (∀ (j : Nat) b,
        [RunArgTerm.binShape [1, 2] (Shape.MakeShape 11 [2]),
          RunArgTerm.bufferRef testExlaBuffer][j]? = some (RunArgTerm.bufferRef b) →
        bufs[j]? = some b) ∧
      (∀ (j : Nat) dt sh,
        [RunArgTerm.binShape [1, 2] (Shape.MakeShape 11 [2]),
          RunArgTerm.bufferRef testExlaBuffer][j]? = some (RunArgTerm.binShape dt sh) →
        (∃ pb, bufs[j]? = some pb ∧
          (ExlaClient.BufferFromBinary testBackend dt sh 0 true).result = .ok pb) ∧
        Event.bufferFromHost dt sh 0 ∈
          (ExlaExecutable.Run testBackend ⟨⟨7⟩, none⟩
            [RunArgTerm.binShape [1, 2] (Shape.MakeShape 11 [2]),
              RunArgTerm.bufferRef testExlaBuffer] false (-1)).trace)) :=
  C10_negative_device_materializes_on_zero testBackend ⟨⟨7⟩, none⟩
    [RunArgTerm.binShape [1, 2] (Shape.MakeShape 11 [2]),
      RunArgTerm.bufferRef testExlaBuffer] false (-1) (by decide)

/-- C4: whenever argument decoding succeeds and the transfers of the
newly materialized (`release_after_run`) input buffers complete, `Run`'s
trace splits into a prefix `t1` — in which every such buffer has been
blocked on and exposed as a tracked handle, and which contains no
dispatch (no portable or default execution) — and a remainder.  This
holds for every backend, in particular ones whose device lookup,
execution or readback then fails: the tracking is never undone by a
later failure. -/
theorem C4_inputs_tracked_before_dispatch (be : Backend) (ex : ExlaExecutable)
    (args : List RunArgTerm) (keep : Bool) (d : Int) (bufs : List ExlaBuffer)
    (hU : (UnpackRunArguments be args (if d ≥ 0 then d else 0)).result = .ok bufs)
    (hB : ∀ buf ∈ bufs, buf.release_after_run = true → buf.buffer.ready = .ok ()) :
    ∃ t1 t2, (ExlaExecutable.Run be ex args keep d).trace = t1 ++ t2 ∧
      (∀ buf ∈ bufs, buf.release_after_run = true →
        Event.blockUntilReady buf.buffer ∈ t1 ∧ Event.makeBufferTerm buf ∈ t1) ∧
      (∀ ev ∈ t1, (∀ dv, ev ≠ .executePortable dv) ∧ ev ≠ .executeDefault) := by
  obtain ⟨hbatok, hbatmem⟩ := blockAndTrack_ok bufs hB
  by_cases hdd : d ≥ 0
  · rw [if_pos hdd] at hU
    refine ⟨(UnpackRunArguments be args d).trace ++ (blockAndTrack bufs).trace,
      (M.bind (M.call (.lookupDevice d) (be.lookupDevice d)) (fun device =>
        M.bind (M.call (.executePortable device)
            (be.executePortable ex.executable (bufs.map ExlaBuffer.buffer) device runOptions))
          (fun result => UnpackResult be result keep))).trace,
      ?_, ?_, ?_⟩
    · rw [run_eq_pos be ex args keep d hdd, M.bind_trace_ok _ hU,
        M.bind_trace_ok _ hbatok, ← List.append_assoc]
    · intro buf hbuf hrel
      obtain ⟨h1, h2⟩ := hbatmem buf hbuf hrel
      simp only [List.mem_append]
      exact ⟨Or.inr h1, Or.inr h2⟩
    · intro ev hev
      rcases List.mem_append.mp hev with h1 | h1
      · rcases unpack_trace_events be args d ev h1 with h2 | ⟨d', s', h2⟩ <;> subst h2 <;>
          exact ⟨fun dv => by simp, by simp⟩
      · rcases blockAndTrack_trace_events bufs ev h1 with ⟨b, h2⟩ | ⟨b, h2⟩ <;> subst h2 <;>
          exact ⟨fun dv => by simp, by simp⟩
  · rw [if_neg hdd] at hU
    refine ⟨(UnpackRunArguments be args 0).trace ++ (blockAndTrack bufs).trace,
      (M.bind (M.call .executeDefault
          (be.execute ex.executable [bufs.map ExlaBuffer.buffer] runOptions))
        (fun result =>
          match result.head? with
          | some r0 => UnpackResult be r0 keep
          | none => M.throw (.backend "executable produced no replica results"))).trace,
      ?_, ?_, ?_⟩
    · rw [run_eq_neg be ex args keep d hdd, M.bind_trace_ok _ hU,
        M.bind_trace_ok _ hbatok, ← List.append_assoc]
    · intro buf hbuf hrel
      obtain ⟨h1, h2⟩ := hbatmem buf hbuf hrel
      simp only [List.mem_append]
      exact ⟨Or.inr h1, Or.inr h2⟩
    · intro ev hev
      rcases List.mem_append.mp hev with h1 | h1
      · rcases unpack_trace_events be args 0 ev h1 with h2 | ⟨d', s', h2⟩ <;> subst h2 <;>
          exact ⟨fun dv => by simp, by simp⟩
      · rcases blockAndTrack_trace_events bufs ev h1 with ⟨b, h2⟩ | ⟨b, h2⟩ <;> subst h2 <;>
          exact ⟨fun dv => by simp, by simp⟩

theorem C4_witness :
    (UnpackRunArguments testBackend
      [RunArgTerm.binShape [1, 2] (Shape.MakeShape 11 [2])]
      (if (-1 : Int) ≥ 0 then (-1 : Int) else 0)).result =
      .ok [⟨⟨false, .ok (), .ok ⟨Shape.MakeShape 11 [2], [1, 2]⟩, Shape.MakeShape 11 [2]⟩,
        true⟩] ∧
    ∃ t1 t2, (ExlaExecutable.Run testBackend ⟨⟨7⟩, none⟩
        [RunArgTerm.binShape [1, 2] (Shape.MakeShape 11 [2])] false (-1)).trace = t1 ++ t2 ∧
      (∀ buf ∈ [(⟨⟨false, .ok (), .ok ⟨Shape.MakeShape 11 [2], [1, 2]⟩,
          Shape.MakeShape 11 [2]⟩, true⟩ : ExlaBuffer)],
        buf.release_after_run = true →
        Event.blockUntilReady buf.buffer ∈ t1 ∧ Event.makeBufferTerm buf ∈ t1) ∧
      (∀ ev ∈ t1, (∀ dv, ev ≠ .executePortable dv) ∧ ev ≠ .executeDefault) :=
  ⟨by decide,
    C4_inputs_tracked_before_dispatch testBackend ⟨⟨7⟩, none⟩
      [RunArgTerm.binShape [1, 2] (Shape.MakeShape 11 [2])] false (-1)
      [⟨⟨false, .ok (), .ok ⟨Shape.MakeShape 11 [2], [1, 2]⟩, Shape.MakeShape 11 [2]⟩, true⟩]
      (by decide) (by decide)⟩

/-- C3: with `device_id ≥ 0`, `Run` resolves the device and executes
portably, its outputs being the unpacking of that single result set;
with `device_id < 0`, `Run` executes against the default configuration
and its outputs are the unpacking of the first replica's result set
only. -/
theorem C3_run_dispatch_modes (be : Backend) (ex : ExlaExecutable)
    (args : List RunArgTerm) (keep : Bool) (d : Int) :
    (∀ bufs dev res, d ≥ 0 →
      (UnpackRunArguments be args d).result = .ok bufs →
      (blockAndTrack bufs).result = .ok () →
      be.lookupDevice d = .ok dev →
      be.executePortable ex.executable (bufs.map ExlaBuffer.buffer) dev runOptions =
        .ok res →
      Event.executePortable dev ∈ (ExlaExecutable.Run be ex args keep d).trace ∧
      (ExlaExecutable.Run be ex args keep d).result = (UnpackResult be res keep).result) ∧
    (∀ bufs r0 rest, d < 0 →
      (UnpackRunArguments be args 0).result = .ok bufs →
      (blockAndTrack bufs).result = .ok () →
      be.execute ex.executable [bufs.map ExlaBuffer.buffer] runOptions = .ok (r0 :: rest) →
      Event.executeDefault ∈ (ExlaExecutable.Run be ex args keep d).trace ∧
      (ExlaExecutable.Run be ex args keep d).result = (UnpackResult be r0 keep).result) := by
  constructor
  · intro bufs dev res hdd hU hBat hL hE
    rw [run_eq_pos be ex args keep d hdd]
    constructor
    · rw [M.bind_trace_ok _ hU, M.bind_trace_ok _ hBat,
        M.bind_trace_ok _ (show (M.call (.lookupDevice d)
          (be.lookupDevice d)).result = .ok dev by simp [hL])]
      simp only [M.call_trace, List.mem_append, List.mem_singleton]
      refine Or.inr (Or.inr (Or.inr ?_))
      rw [M.bind_trace_ok _ (show (M.call (.executePortable dev)
        (be.executePortable ex.executable (bufs.map ExlaBuffer.buffer) dev
          runOptions)).result = .ok res by simp [hE])]
      simp
    · rw [M.bind_result_ok _ hU, M.bind_result_ok _ hBat,
        M.bind_result_ok _ (show (M.call (.lookupDevice d)
          (be.lookupDevice d)).result = .ok dev by simp [hL]),
        M.bind_result_ok _ (show (M.call (.executePortable dev)
          (be.executePortable ex.executable (bufs.map ExlaBuffer.buffer) dev
            runOptions)).result = .ok res by simp [hE])]
  · intro bufs r0 rest hd hU hBat hE
    have hdd : ¬d ≥ 0 := not_le.mpr hd
    rw [run_eq_neg be ex args keep d hdd]
    constructor
    · rw [M.bind_trace_ok _ hU, M.bind_trace_ok _ hBat,
        M.bind_trace_ok _ (show (M.call .executeDefault
          (be.execute ex.executable [bufs.map ExlaBuffer.buffer] runOptions)).result =
            .ok (r0 :: rest) by simp [hE])]
      simp
    · rw [M.bind_result_ok _ hU, M.bind_result_ok _ hBat,
        M.bind_result_ok _ (show (M.call .executeDefault
          (be.execute ex.executable [bufs.map ExlaBuffer.buffer] runOptions)).result =
            .ok (r0 :: rest) by simp [hE])]
      simp

theorem C3_witness :
    (Event.executePortable ⟨1⟩ ∈ (ExlaExecutable.Run testBackend ⟨⟨7⟩, none⟩
        [RunArgTerm.bufferRef testExlaBuffer] true 1).trace ∧
      (ExlaExecutable.Run testBackend ⟨⟨7⟩, none⟩
        [RunArgTerm.bufferRef testExlaBuffer] true 1).result =
        (UnpackResult testBackend [testPjRtBuffer] true).result) ∧
    (Event.executeDefault ∈ (ExlaExecutable.Run testBackend ⟨⟨7⟩, none⟩
        [RunArgTerm.bufferRef testExlaBuffer] true (-1)).trace ∧
      (ExlaExecutable.Run testBackend ⟨⟨7⟩, none⟩
        [RunArgTerm.bufferRef testExlaBuffer] true (-1)).result =
        (UnpackResult testBackend [testPjRtBuffer] true).result) :=
  ⟨(C3_run_dispatch_modes testBackend ⟨⟨7⟩, none⟩ [RunArgTerm.bufferRef testExlaBuffer]
      true 1).1 [testExlaBuffer] ⟨1⟩ [testPjRtBuffer]
      (by decide) (by decide) (by decide) (by decide) (by decide),
    (C3_run_dispatch_modes testBackend ⟨⟨7⟩, none⟩ [RunArgTerm.bufferRef testExlaBuffer]
      true (-1)).2 [testExlaBuffer] [testPjRtBuffer] []
      (by decide) (by decide) (by decide) (by decide)⟩
